import Mathlib

/-!
Verification development for the binary spectral-log ingestion pipeline in
`Data_processing/Data_analysis/noise-airq/data_preparation/noise_spectrum_preparation.py`.

The development shallowly embeds, from the Python source:
  * the sector-aligned binary frame reader (`stream_frames_to_summaries`),
    over byte lists (bytes are naturals `< 256`);
  * the file-discovery / I/O-error behaviour (`find_log_files` plus the
    per-file loop), over an explicit filesystem model whose operations
    return `Except`;
  * the spectral feature extractor (`to_frame_features`), over `Option ℝ`
    where `none` models an IEEE NaN and the `some` layer carries exact
    real arithmetic;
  * the stateful voice detector (`stateful_detect_one_kit`) with Python
    `max`/`min` NaN asymmetry and `math.log10`;
  * the per-minute aggregation formulas and the dense minute grid of
    `per_kit_worker`, over `ℚ`.

Floating-point rounding is abstracted to exact arithmetic; NaN propagation
(the part of IEEE semantics the claims depend on) is modelled explicitly.
Division by zero uses the Lean convention `x / 0 = 0` (the corresponding
numpy infinities are not modelled; no claim depends on them).
-/

namespace NoisePrep

/-! ## Constants (CONFIG section of the source) -/

/-- Sector size in bytes (`SECTOR = 512`). -/
def SECTOR : ℕ := 512

/-- Header size in bytes: `struct.calcsize("<4sQ B f f H f H 3s")`,
    i.e. magic(4) + ts(8) + voice(1) + snr(4) + energy(4) + peaks(2) +
    contrast(4) + bins(2) + reserved(3) = 32 (little-endian packing, no
    padding). -/
def HDR_SIZE : ℕ := 4 + 8 + 1 + 4 + 4 + 2 + 4 + 2 + 3

/-- The magic constant `b"FFT2"` as bytes. -/
def MAGIC : List ℕ := [70, 70, 84, 50]

/-! ## Byte-level utilities -/

/-- `aligned_up(n, a)`: round `n` up to the next multiple of `a`
    (`((n + a - 1) // a) * a`). -/
def aligned_up (n : ℕ) (a : ℕ := SECTOR) : ℕ := (n + a - 1) / a * a

/-- Little-endian value of a byte list (least significant byte first). -/
def leDecode : List ℕ → ℕ
  | [] => 0
  | b :: bs => b + 256 * leDecode bs

/-- Slice of `len` bytes of `file` starting at `off` (as `f.seek(off)`
    followed by `f.read(len)`: short reads return fewer bytes). -/
def slice (file : List ℕ) (off len : ℕ) : List ℕ := (file.drop off).take len

/-- Little-endian field of `len` bytes at offset `off`. -/
def leVal (file : List ℕ) (off len : ℕ) : ℕ := leDecode (slice file off len)

/-! ## Header parsing (`struct.unpack(HDR_FMT, hdr)`) -/

/-- Unpacked header fields of `HDR_FMT = "<4sQ B f f H f H 3s"`.
    The three float fields are kept as raw 4-byte slices: their numeric
    values never influence the reader's control flow. -/
structure Hdr where
  magic : List ℕ
  ts : ℕ
  voice : ℕ
  snrB : List ℕ
  energyB : List ℕ
  peaks : ℕ
  contrastB : List ℕ
  bins : ℕ
  res : List ℕ
deriving DecidableEq

/-- Unpack the 32 header bytes at `off`: cumulative little-endian field
    offsets are 0, 4, 12, 13, 17, 21, 23, 27, 29. -/
def parseHdr (file : List ℕ) (off : ℕ) : Hdr :=
  { magic := slice file off 4
    ts := leVal file (off + 4) 8
    voice := leVal file (off + 12) 1
    snrB := slice file (off + 13) 4
    energyB := slice file (off + 17) 4
    peaks := leVal file (off + 21) 2
    contrastB := slice file (off + 23) 4
    bins := leVal file (off + 27) 2
    res := slice file (off + 29) 3 }

/-! ## The streaming frame reader (`stream_frames_to_summaries`, inner loop) -/

/-- Half-open request window `[start, stop)` in epoch seconds. -/
structure Window where
  start : ℕ
  stop : ℕ
deriving DecidableEq

/-- `np.frombuffer(payload, dtype="<f4")`: the payload split into
    little-endian 4-byte words (raw 32-bit float patterns). -/
def decodeWords : List ℕ → List ℕ
  | b0 :: b1 :: b2 :: b3 :: rest => leDecode [b0, b1, b2, b3] :: decodeWords rest
  | _ => []

/-- An in-window frame retained by the reader: timestamp, declared bin
    count, and the decoded `2 * bins` payload words, from which the
    per-frame summary sums are computed downstream. -/
structure RawFrame where
  ts : ℕ
  bins : ℕ
  words : List ℕ
deriving DecidableEq

/-- Outcome of one iteration of the reader's `while` loop. -/
inductive Step where
  | stop : Step
  | skip : ℕ → Step
  | emit : RawFrame → ℕ → Step
deriving DecidableEq

/-- Cursor advance for a whole frame:
    `aligned_up(HDR_SIZE + data_bytes, SECTOR)` with `data_bytes = bins*8`. -/
def frameAdvance (bins : ℕ) : ℕ := aligned_up (HDR_SIZE + bins * 8)

/-- One iteration of the reader loop at cursor `offset`, mirroring the body
    of the `while offset + HDR_SIZE <= size` loop:
    header-out-of-bounds stops the file; bad magic skips one sector; a short
    payload stops the file; an out-of-window frame skips the aligned frame
    size; a decoded-length mismatch (defensive, see `decodeWords_length`)
    skips the aligned frame size; otherwise the frame is emitted and the
    cursor advances by the aligned frame size. -/
def readerStep (w : Window) (file : List ℕ) (offset : ℕ) : Step :=
  if file.length < offset + HDR_SIZE then .stop
  else
    let h := parseHdr file offset
    if h.magic ≠ MAGIC then .skip (offset + SECTOR)
    else
      let dataBytes := h.bins * 8
      let payload := slice file (offset + HDR_SIZE) dataBytes
      if payload.length < dataBytes then .stop
      else if h.ts < w.start ∨ w.stop ≤ h.ts then .skip (offset + frameAdvance h.bins)
      else
        let arr := decodeWords payload
        if arr.length ≠ h.bins * 2 then .skip (offset + frameAdvance h.bins)
        else .emit ⟨h.ts, h.bins, arr⟩ (offset + frameAdvance h.bins)

/-- Fuelled reader loop; every continuing step advances the cursor by at
    least one sector, so `file.length + 1` units of fuel always suffice. -/
def readerRun (w : Window) (file : List ℕ) : ℕ → ℕ → List RawFrame
  | 0, _ => []
  | fuel + 1, offset =>
    match readerStep w file offset with
    | .stop => []
    | .skip next => readerRun w file fuel next
    | .emit r next => r :: readerRun w file fuel next

/-- All in-window frames parsed from one log file (cursor starts at 0). -/
def readerFrames (w : Window) (file : List ℕ) : List RawFrame :=
  readerRun w file (file.length + 1) 0

/-! ## File discovery and I/O errors (`find_log_files` and the per-file loop) -/

/-- Python I/O error kinds relevant to the pipeline's `except` clauses. -/
inductive IOErr where
  | fileNotFound : IOErr
  | permissionDenied : IOErr
  | other : IOErr
deriving DecidableEq

/-- Filesystem model: listing a directory and fetching a file's bytes are
    the two fallible operations the pipeline performs. -/
structure FS where
  listdir : String → Except IOErr (List String)
  fileBytes : String → Except IOErr (List ℕ)

/-- Match `^LOG_(\d{4})\.BIN$` (case-insensitive) and return the numeric
    index. -/
def logIndex (name : String) : Option ℕ :=
  match name.toList with
  | [l, o, g, u, d1, d2, d3, d4, dot, b, i, n] =>
    if (l = 'L' ∨ l = 'l') ∧ (o = 'O' ∨ o = 'o') ∧ (g = 'G' ∨ g = 'g') ∧ u = '_' ∧
        d1.isDigit ∧ d2.isDigit ∧ d3.isDigit ∧ d4.isDigit ∧ dot = '.' ∧
        (b = 'B' ∨ b = 'b') ∧ (i = 'I' ∨ i = 'i') ∧ (n = 'N' ∨ n = 'n') then
      some ((((d1.toNat - 48) * 10 + (d2.toNat - 48)) * 10 + (d3.toNat - 48)) * 10 + (d4.toNat - 48))
    else none
  | _ => none

/-- Stable insertion into a list sorted by index. -/
def insortPair (x : ℕ × String) : List (ℕ × String) → List (ℕ × String)
  | [] => [x]
  | y :: ys => if x.1 ≤ y.1 then x :: y :: ys else y :: insortPair x ys

/-- Sort `(index, name)` pairs ascending by index (`files.sort(key=...)`). -/
def sortByIdx (l : List (ℕ × String)) : List (ℕ × String) := l.foldr insortPair []

/-- Model of `find_log_files`: list the directory, keep `LOG_dddd.BIN`
    names with their indices, sorted ascending. Only `FileNotFoundError`
    is caught (yielding an empty list); any other listing error
    propagates. -/
def find_log_files (fs : FS) (dir : String) : Except IOErr (List (ℕ × String)) :=
  match fs.listdir dir with
  | .error .fileNotFound => .ok []
  | .error e => .error e
  | .ok names => .ok (sortByIdx (names.filterMap fun n => (logIndex n).map fun i => (i, n)))

/-- The per-file loop of `stream_frames_to_summaries`: open and parse each
    log file in order. File access errors are not caught and propagate. -/
def streamFiles (fs : FS) (w : Window) : List (ℕ × String) → Except IOErr (List RawFrame)
  | [] => .ok []
  | f :: rest =>
    match fs.fileBytes f.2 with
    | .error e => .error e
    | .ok bs =>
      match streamFiles fs w rest with
      | .error e => .error e
      | .ok tail => .ok (readerFrames w bs ++ tail)

/-- Model of `stream_frames_to_summaries` over the filesystem model: for
    each input directory, discover log files and parse them in index
    order. -/
def stream_frames_to_summaries (fs : FS) (w : Window) : List String → Except IOErr (List RawFrame)
  | [] => .ok []
  | d :: ds =>
    match find_log_files fs d with
    | .error e => .error e
    | .ok logs =>
      match streamFiles fs w (logs.map fun p => (p.1, d ++ "/" ++ p.2)) with
      | .error e => .error e
      | .ok here =>
        match stream_frames_to_summaries fs w ds with
        | .error e => .error e
        | .ok rest => .ok (here ++ rest)

/-! ## NaN-aware real arithmetic

`F := Option ℝ` models a Python/numpy double: `none` is NaN, `some x` a
finite value with exact real arithmetic. Comparisons with NaN are false;
numpy `maximum`/`minimum` propagate NaN from either side, while Python's
builtin `max(a, b)`/`min(a, b)` return `b` only when the comparison
succeeds, hence keep the FIRST argument when either is NaN. -/

/-- A Python float: `none` models NaN. -/
abbrev F := Option ℝ

noncomputable def addF : F → F → F
  | some x, some y => some (x + y)
  | _, _ => none

noncomputable def subF : F → F → F
  | some x, some y => some (x - y)
  | _, _ => none

noncomputable def mulF : F → F → F
  | some x, some y => some (x * y)
  | _, _ => none

/-- Division; `x / 0 = 0` by the Lean convention (see module docstring). -/
noncomputable def divF : F → F → F
  | some x, some y => some (x / y)
  | _, _ => none

/-- Squaring (`** 2`). -/
noncomputable def sqF : F → F
  | some x => some (x ^ 2)
  | none => none

/-- `np.sqrt`: NaN on negative input. -/
noncomputable def sqrtF : F → F
  | some x => if 0 ≤ x then some (Real.sqrt x) else none
  | none => none

noncomputable def expF : F → F
  | some x => some (Real.exp x)
  | none => none

/-- `math.log10`; the source applies it only to positive arguments (a
    non-positive argument would raise `ValueError` in Python, modelled
    here as NaN — unreachable under the claims' hypotheses). -/
noncomputable def log10F : F → F
  | some x => if 0 < x then some (Real.logb 10 x) else none
  | none => none

/-- `np.maximum`: NaN-propagating from either argument. -/
noncomputable def npMax : F → F → F
  | some x, some y => some (max x y)
  | _, _ => none

/-- `np.minimum`: NaN-propagating from either argument. -/
noncomputable def npMin : F → F → F
  | some x, some y => some (min x y)
  | _, _ => none

/-- Python `max(a, b)`: returns `b` iff `b > a` holds, so a NaN in either
    slot yields the first argument (NaN if the first is NaN). -/
noncomputable def pymax : F → F → F
  | some x, some y => some (max x y)
  | some x, none => some x
  | none, _ => none

/-- Python `min(a, b)`: dually, keeps the first argument on NaN. -/
noncomputable def pymin : F → F → F
  | some x, some y => some (min x y)
  | some x, none => some x
  | none, _ => none

/-- IEEE `<=`: false whenever either side is NaN. -/
def Fle : F → F → Prop
  | some x, some y => x ≤ y
  | _, _ => False

/-- `np.nan_to_num(x, nan=d)` on a scalar. -/
def nanToNum (d : ℝ) : F → ℝ
  | some x => x
  | none => d

/-! ## Analysis constants -/

noncomputable def EPS : ℝ := 1 / 1000000000000
noncomputable def SNR_MIN_LINEAR : ℝ := 16 / 10
noncomputable def SFM_MAX_FOR_VOICE : ℝ := 55 / 100
noncomputable def RISE_DB_OVER_BASE : ℝ := 3
noncomputable def BASELINE_ALPHA : ℝ := 5 / 100
def CONFIRM_FRAMES : ℕ := 2
noncomputable def W_RISE : ℝ := 5 / 10
noncomputable def W_SNR : ℝ := 3 / 10
noncomputable def W_HARM : ℝ := 2 / 10
noncomputable def NOISE_RMS_FLOOR : ℝ := 1 / 1000000
noncomputable def SNR_CAP : ℝ := 10000

/-! ## Feature extraction (`to_frame_features`) -/

/-- One row of the summary table produced by the reader: energy sums may
    be NaN (they are numpy sums over payload magnitudes), counts are
    integers. -/
structure FrameSummary where
  sum_band : F
  sum_all : F
  n_band : ℤ
  n_all : ℤ
  sum_mag_band : F
  sum_log_mag_band : F

/-- `ff["n_all"].clip(lower=1)` (the column is reassigned, so later
    expressions use the clipped value). -/
def nAllClip (s : FrameSummary) : ℤ := max s.n_all 1

/-- `ff["n_band"].clip(lower=1)`. -/
def nBandClip (s : FrameSummary) : ℤ := max s.n_band 1

/-- `bandRMS = np.sqrt(sum_band / n_band)`. -/
noncomputable def bandRMS (s : FrameSummary) : F :=
  sqrtF (divF s.sum_band (some (nBandClip s)))

/-- `sum_noise = np.maximum(sum_all - sum_band, 0.0)`. -/
noncomputable def sumNoise (s : FrameSummary) : F :=
  npMax (subF s.sum_all s.sum_band) (some 0)

/-- `n_noise = (n_all - n_band).clip(lower=1)` (on the clipped columns). -/
def nNoise (s : FrameSummary) : ℤ := max (nAllClip s - nBandClip s) 1

/-- `noiseRMS = np.maximum(np.sqrt(sum_noise / n_noise), NOISE_RMS_FLOOR)`. -/
noncomputable def noiseRMS (s : FrameSummary) : F :=
  npMax (sqrtF (divF (sumNoise s) (some (nNoise s)))) (some NOISE_RMS_FLOOR)

/-- `am_mag = sum_mag_band / n_band`. -/
noncomputable def amMag (s : FrameSummary) : F :=
  divF s.sum_mag_band (some (nBandClip s))

/-- `gm_mag = np.exp(sum_log_mag_band / n_band)`. -/
noncomputable def gmMag (s : FrameSummary) : F :=
  expF (divF s.sum_log_mag_band (some (nBandClip s)))

/-- `sfm = np.clip(gm_mag / (am_mag + EPS), 0, np.inf)`; the (vacuous)
    upper bound `np.inf` is omitted, NaN still propagates through the
    lower clip. -/
noncomputable def sfm (s : FrameSummary) : F :=
  npMax (divF (gmMag s) (addF (amMag s) (some EPS))) (some 0)

/-- `snr_lin = np.clip((bandRMS / noiseRMS) ** 2, 0, SNR_CAP)`
    (`np.clip(a, lo, hi) = np.minimum(np.maximum(a, lo), hi)`). -/
noncomputable def snr_lin (s : FrameSummary) : F :=
  npMin (npMax (sqF (divF (bandRMS s) (noiseRMS s))) (some 0)) (some SNR_CAP)

/-! ## The stateful voice detector (`stateful_detect_one_kit`)

The detector consumes, per frame, the feature columns `bandRMS`, `sfm`,
`snr_lin` of one kit sorted by `ts_unix`; `sfm` and `snr_lin` are
NaN-replaced up front (`np.nan_to_num`), `bandRMS` is not. -/

/-- Per-frame detector input (one row of the sorted feature frame). -/
structure Frame where
  brms : F
  sfm0 : F
  snr0 : F

/-- Detector state: adaptive baseline (a Python float, possibly NaN) and
    the consecutive-candidate counter. -/
structure DetState where
  baseline : F
  confirm : ℕ

/-- Detector output for one frame. -/
structure FrameOut where
  voice : ℕ
  inten : F
  score : F

/-- `rise_db = max(20.0 * math.log10((brms + EPS) / (baseline + EPS)), 0.0)`
    (Python `max`). -/
noncomputable def riseDb (st : DetState) (f : Frame) : F :=
  pymax (mulF (some 20) (log10F (divF (addF f.brms (some EPS)) (addF st.baseline (some EPS)))))
    (some 0)

/-- `cand = (snr >= SNR_MIN_LINEAR) and (sfm <= SFM_MAX_FOR_VOICE) and
    (rise_db >= RISE_DB_OVER_BASE)`; each comparison is IEEE (false on
    NaN). -/
noncomputable def candP (st : DetState) (f : Frame) : Prop :=
  SNR_MIN_LINEAR ≤ nanToNum 0 f.snr0 ∧ nanToNum 1 f.sfm0 ≤ SFM_MAX_FOR_VOICE ∧
    Fle (some RISE_DB_OVER_BASE) (riseDb st f)

open Classical in
/-- `confirm = confirm + 1 if cand else 0`. -/
noncomputable def newConfirm (st : DetState) (f : Frame) : ℕ :=
  if candP st f then st.confirm + 1 else 0

/-- `v = 1 if confirm >= CONFIRM_FRAMES else 0`. -/
noncomputable def voiceOut (st : DetState) (f : Frame) : ℕ :=
  if CONFIRM_FRAMES ≤ newConfirm st f then 1 else 0

/-- `inten[i] = rise_db if v == 1 else 0.0`. -/
noncomputable def intenOut (st : DetState) (f : Frame) : F :=
  if voiceOut st f = 1 then riseDb st f else some 0

/-- `score[i] = W_RISE*rise_norm + W_SNR*snr_norm + W_HARM*harm_norm` with
    `rise_norm = min(max(rise_db/12, 0), 1)` (Python `min`/`max`, so NaN in
    `rise_db` survives the clamps), `snr_norm = min(max((snr-1)/4, 0), 1)`,
    `harm_norm = min(max((1-sfm)/1, 0), 1)` on the NaN-replaced `snr`,
    `sfm`. -/
noncomputable def scoreOut (st : DetState) (f : Frame) : F :=
  addF
    (addF (mulF (some W_RISE) (pymin (pymax (divF (riseDb st f) (some 12)) (some 0)) (some 1)))
      (some (W_SNR * min (max ((nanToNum 0 f.snr0 - 1) / 4) 0) 1)))
    (some (W_HARM * min (max ((1 - nanToNum 1 f.sfm0) / 1) 0) 1))

/-- `if v == 0: baseline = (1-BASELINE_ALPHA)*baseline +
    BASELINE_ALPHA*max(brms, EPS)` (Python `max`). -/
noncomputable def newBaseline (st : DetState) (f : Frame) : F :=
  if voiceOut st f = 0 then
    addF (mulF (some (1 - BASELINE_ALPHA)) st.baseline)
      (mulF (some BASELINE_ALPHA) (pymax f.brms (some EPS)))
  else st.baseline

/-- One iteration of the detector's per-frame loop. -/
noncomputable def detStep (st : DetState) (f : Frame) : DetState × FrameOut :=
  (⟨newBaseline st f, newConfirm st f⟩, ⟨voiceOut st f, intenOut st f, scoreOut st f⟩)

/-- The detector loop over a frame stream, returning the final state and
    the per-frame outputs in order. -/
noncomputable def detRun (st : DetState) : List Frame → DetState × List FrameOut
  | [] => (st, [])
  | f :: fs =>
    let s := detStep st f
    let r := detRun s.1 fs
    (r.1, s.2 :: r.2)

/-! ## Baseline initialization -/

/-- Insertion into a sorted real list. -/
noncomputable def insortF (x : ℝ) : List ℝ → List ℝ
  | [] => [x]
  | y :: ys => if x ≤ y then x :: y :: ys else y :: insortF x ys

/-- Sort a real list ascending. -/
noncomputable def sortR (l : List ℝ) : List ℝ := l.foldr insortF []

/-- Median of a sorted list: middle element, or the mean of the two middle
    elements for even length (as `pandas.Series.median`). -/
noncomputable def medianR (s : List ℝ) : ℝ :=
  if s.length % 2 = 1 then s.getD (s.length / 2) 0
  else (s.getD (s.length / 2 - 1) 0 + s.getD (s.length / 2) 0) / 2

/-- `pandas.Series.median()`: NaN entries are skipped; the median of an
    all-NaN (or empty) series is NaN. -/
noncomputable def medianF (l : List F) : F :=
  if _h : l.filterMap id = [] then none else some (medianR (sortR (l.filterMap id)))

/-- `init = g["bandRMS"].head(20).median() if len(g) >= 5 else
    float(g["bandRMS"].iloc[0])`. -/
noncomputable def detInit (l : List F) : F :=
  if 5 ≤ l.length then medianF (l.take 20) else l.headD (some 0)

/-- `baseline = float(max(init, EPS))` (Python `max`). -/
noncomputable def detBaseline0 (l : List F) : F := pymax (detInit l) (some EPS)

/-- The detector applied to one kit's (ts-sorted) frame stream: initial
    baseline from the head of the `bandRMS` column, `confirm = 0`. -/
noncomputable def stateful_detect_one_kit (fs : List Frame) : DetState × List FrameOut :=
  detRun ⟨detBaseline0 (fs.map Frame.brms), 0⟩ fs

open Classical in
/-- Number of consecutive frames at the END of `fs` that are candidates at
    their processing point when the stream is run from `st` (the
    specification-side notion for the `confirm` counter). -/
noncomputable def numTrailCand : DetState → List Frame → ℕ
  | _, [] => 0
  | st, f :: fs =>
    let t := numTrailCand (detStep st f).1 fs
    if t = fs.length ∧ candP st f then fs.length + 1 else t

/-! ## Frame period and per-minute aggregation (`per_kit_worker`)

The per-minute metric formulas operate on exact rationals; a kit's frame
period is `None` (pandas NaN) when the kit has fewer than 2 frames. -/

/-- `estimate_frame_period_seconds`: NaN if fewer than 2 frames, else the
    mean of consecutive `ts_unix` differences. -/
def estimate_frame_period_seconds (ts : List ℤ) : Option ℚ :=
  let d : List ℤ := ts.zipWith (fun a b => b - a) ts.tail
  if ts.length < 2 then none else some ((d.sum : ℚ) / (d.length : ℚ))

/-- `ts_min_utc`-bucket key: `(ts // 60) * 60` (Python floor division). -/
def minuteKey (t : ℤ) : ℤ := Int.fdiv t 60 * 60

/-- Rows of one kit's detector output falling in minute bucket `m`
    (a row is `(ts_unix, voice)`). -/
def minuteRows (rows : List (ℤ × ℕ)) (m : ℤ) : List (ℤ × ℕ) :=
  rows.filter fun r => minuteKey r.1 = m

/-- `frames = ("voice", "size")`: frame count in the bucket. -/
def framesIn (rows : List (ℤ × ℕ)) (m : ℤ) : ℕ := (minuteRows rows m).length

/-- `voice_frames = ("voice", "sum")`: voice-frame count in the bucket. -/
def voiceIn (rows : List (ℤ × ℕ)) (m : ℤ) : ℕ :=
  ((minuteRows rows m).map Prod.snd).sum

/-- `coverage_s = np.minimum(frames * frame_period_s, 60.0)`. -/
def coverage_s (f : ℕ) (p : ℚ) : ℚ := min (f * p) 60

/-- `coverage_rate = coverage_s / 60.0`. -/
def coverage_rate (f : ℕ) (p : ℚ) : ℚ := coverage_s f p / 60

/-- `voice_seconds = np.minimum(voice_frames * frame_period_s, coverage_s)`. -/
def voice_seconds (v f : ℕ) (p : ℚ) : ℚ := min (v * p) (coverage_s f p)

/-- `voice_rate_time = np.where(coverage_s > 0, voice_seconds / coverage_s, 0.0)`. -/
def voice_rate_time (v f : ℕ) (p : ℚ) : ℚ :=
  if 0 < coverage_s f p then voice_seconds v f p / coverage_s f p else 0

/-! ## The dense minute grid (`per_kit_worker`, grid merge) -/

/-- The aggregated per-minute columns that the left join zero-fills when a
    minute has no frames (`fillna(0)` on exactly these columns). -/
structure MinuteStats where
  frames : ℤ
  voice_frames : ℤ
  coverage_s : ℚ
  coverage_rate : ℚ
  voice_seconds : ℚ
  voice_rate : ℚ
  voice_rate_time : ℚ
deriving DecidableEq

/-- The zero-filled row used for minutes with no frames. -/
def zeroStats : MinuteStats := ⟨0, 0, 0, 0, 0, 0, 0⟩

/-- `t_start = (start_ep // 60) * 60`. -/
def tStart (s : ℕ) : ℕ := s / 60 * 60

/-- `t_end = ((end_ep + 59) // 60) * 60`. -/
def tEnd (e : ℕ) : ℕ := (e + 59) / 60 * 60

/-- `pd.date_range(t_start, t_end, freq="1min", inclusive="left")`:
    minutes `t_start, t_start + 60, ...` strictly below `t_end`. -/
def minuteGrid (s e : ℕ) : List ℕ :=
  (List.range ((tEnd e - tStart s) / 60)).map fun i => tStart s + 60 * i

/-- Number of minutes the window `[s, e)` spans. -/
def numMinutes (s e : ℕ) : ℕ := (e + 59) / 60 - s / 60

/-- `grid.merge(agg, on=..., how="left")` followed by `fillna(0)` on the
    count/rate columns: one output row per grid minute, taking the
    aggregated row when present and `zeroStats` otherwise. -/
def denseJoin (agg : List (ℕ × MinuteStats)) (s e : ℕ) : List (ℕ × MinuteStats) :=
  (minuteGrid s e).map fun m => (m, (agg.lookup m).getD zeroStats)

/-! ## Specification-side definitions (for refinement comparisons)

These definitions follow the SPEC's words (not the source) and exist only
to be compared against the source-derived definitions above. -/

/-- Header size under the spec's claimed field list: 4-byte magic, 8-byte
    timestamp, 1-byte flag, three 4-byte floats, 2-byte bin count, 3
    reserved bytes. Modelled from the spec for comparison with
    `HDR_SIZE`. -/
def specHdrSize : ℕ := 4 + 8 + 1 + 3 * 4 + 2 + 3

/-- Serializer for the actual header layout (amended claim): the
    concatenation of the magic, the 8 timestamp bytes, the flag byte, the
    three raw float fields, the two 2-byte fields and the reserved
    bytes. -/
def mkHdrBytes (tsB flB snrB energyB peaksB contrastB binsB resB : List ℕ) : List ℕ :=
  MAGIC ++ tsB ++ flB ++ snrB ++ energyB ++ peaksB ++ contrastB ++ binsB ++ resB

/-- Initial baseline under the SPEC's claimed rule: median of the first
    `min(n, 20)` values when at least 20 frames exist, the first value
    when fewer exist, floored at `EPS`. Modelled from the spec for
    comparison with `detBaseline0`. -/
noncomputable def specBaseline0 (l : List F) : F :=
  if 20 ≤ l.length then pymax (medianF (l.take 20)) (some EPS)
  else pymax (l.headD (some 0)) (some EPS)

/-- Concrete test fixture: a valid one-sector frame, timestamp 100,
    1 bin, payload words 10 and 20, zero-padded to the sector size. -/
def frameABytes : List ℕ :=
  mkHdrBytes [100, 0, 0, 0, 0, 0, 0, 0] [0] [0, 0, 0, 0] [0, 0, 0, 0] [0, 0] [0, 0, 0, 0]
    [1, 0] [0, 0, 0] ++ [10, 0, 0, 0, 20, 0, 0, 0] ++ List.replicate 472 0

/-- Concrete test fixture: a valid one-sector frame, timestamp 150,
    1 bin, payload words 30 and 40, zero-padded to the sector size. -/
def frameBBytes : List ℕ :=
  mkHdrBytes [150, 0, 0, 0, 0, 0, 0, 0] [0] [0, 0, 0, 0] [0, 0, 0, 0] [0, 0] [0, 0, 0, 0]
    [1, 0] [0, 0, 0] ++ [30, 0, 0, 0, 40, 0, 0, 0] ++ List.replicate 472 0

/-! ## Helper lemmas -/

lemma EPS_pos : 0 < EPS := by norm_num [EPS]

/-- The decoded float array always has `payload.length / 4` entries. -/
lemma decodeWords_length : ∀ payload : List ℕ, (decodeWords payload).length = payload.length / 4
  | b0 :: b1 :: b2 :: b3 :: rest => by
    have ih := decodeWords_length rest
    simp only [decodeWords, List.length_cons, ih]
    omega
  | [] => by simp [decodeWords]
  | [_] => by simp [decodeWords]
  | [_, _] => by simp [decodeWords]
  | [_, _, _] => by simp [decodeWords]

/-! ## Claims -/

/-- C5: for every window `[s, e)` spanning `M` minutes, the dense join has
    exactly `M` rows, one per grid minute (the grid has no duplicates),
    and every minute absent from the aggregate carries the zero-filled
    row (zero frames, voice_frames, coverage_s, coverage_rate,
    voice_seconds, voice_rate, voice_rate_time — not nulls). -/
theorem C5_dense_minute_grid (agg : List (ℕ × MinuteStats)) (s e : ℕ) :
    (denseJoin agg s e).length = numMinutes s e ∧
    (denseJoin agg s e).map Prod.fst = minuteGrid s e ∧
    (minuteGrid s e).Nodup ∧
    ∀ m ∈ minuteGrid s e, agg.lookup m = none → (m, zeroStats) ∈ denseJoin agg s e := by
  refine ⟨?_, ?_, ?_, ?_⟩
  · simp only [denseJoin, minuteGrid, List.length_map, List.length_range, numMinutes,
      tStart, tEnd]
    rw [← Nat.sub_mul, Nat.mul_div_cancel _ (by norm_num : 0 < 60)]
  · simp [denseJoin, List.map_map, Function.comp_def]
  · exact (List.nodup_range _).map fun i j h => by omega
  · intro m hm hl
    have : (m, ((agg.lookup m).getD zeroStats)) ∈ denseJoin agg s e :=
      List.mem_map_of_mem _ hm
    rwa [hl] at this

/-- Witness for C5 at a concrete two-minute window with no data. -/
theorem C5_witness : ((60 : ℕ), zeroStats) ∈ denseJoin [] 0 120 :=
  (C5_dense_minute_grid [] 0 120).2.2.2 60 (by decide) rfl

/-- C4: the coverage-corrected presence metric. The estimated frame period
    is undefined (NaN) for fewer than 2 frames and otherwise the mean of
    consecutive timestamp deltas; per bucket, `coverage_s = min(f*p, 60)`,
    `coverage_rate = coverage_s/60`, `voice_seconds = min(v*p, coverage_s)`
    and `voice_rate_time = voice_seconds/coverage_s` when `coverage_s > 0`
    else `0`; 30 frames at a 2-second period all voice gives
    `voice_rate_time = 1`, and 10 of 30 voice gives `1/3`. -/
theorem C4_coverage_metrics :
    (∀ ts : List ℤ, ts.length < 2 → estimate_frame_period_seconds ts = none) ∧
    (∀ ts : List ℤ, 2 ≤ ts.length →
      estimate_frame_period_seconds ts =
        some (((ts.zipWith (fun a b : ℤ => b - a) ts.tail).sum : ℚ) / ((ts.length - 1 : ℕ) : ℚ))) ∧
    (∀ (f v : ℕ) (p : ℚ),
      coverage_s f p = min (f * p) 60 ∧
      coverage_rate f p = coverage_s f p / 60 ∧
      voice_seconds v f p = min (v * p) (coverage_s f p) ∧
      (0 < coverage_s f p → voice_rate_time v f p = voice_seconds v f p / coverage_s f p) ∧
      (¬ 0 < coverage_s f p → voice_rate_time v f p = 0)) ∧
    (estimate_frame_period_seconds ((List.range 30).map fun i : ℕ => (2 * i : ℤ)) = some 2) ∧
    (voice_rate_time (voiceIn ((List.range 30).map fun i : ℕ => ((2 * i : ℤ), 1)) 0)
      (framesIn ((List.range 30).map fun i : ℕ => ((2 * i : ℤ), 1)) 0) 2 = 1) ∧
    (voice_rate_time
      (voiceIn ((List.range 30).map fun i : ℕ => ((2 * i : ℤ), if i < 10 then 1 else 0)) 0)
      (framesIn ((List.range 30).map fun i : ℕ => ((2 * i : ℤ), if i < 10 then 1 else 0)) 0) 2
      = 1 / 3) := by
  refine ⟨?_, ?_, ?_, ?_, ?_, ?_⟩
  · intro ts h
    simp [estimate_frame_period_seconds, h]
  · intro ts h
    have hd : (ts.zipWith (fun a b : ℤ => b - a) ts.tail).length = ts.length - 1 := by
      simp only [List.length_zipWith, List.length_tail]
      omega
    simp only [estimate_frame_period_seconds]
    rw [if_neg (by omega), hd]
  · intro f v p
    refine ⟨rfl, rfl, rfl, fun h => ?_, fun h => ?_⟩
    · simp [voice_rate_time, if_pos h]
    · simp [voice_rate_time, if_neg h]
  · have hz : (((List.range 30).map fun i : ℕ => (2 * i : ℤ)).zipWith (fun a b : ℤ => b - a)
        ((List.range 30).map fun i : ℕ => (2 * i : ℤ)).tail) = List.replicate 29 2 := by decide
    simp only [estimate_frame_period_seconds, hz]
    norm_num [List.sum_replicate]
  · have hf : framesIn ((List.range 30).map fun i : ℕ => ((2 * i : ℤ), 1)) 0 = 30 := by decide
    have hv : voiceIn ((List.range 30).map fun i : ℕ => ((2 * i : ℤ), 1)) 0 = 30 := by decide
    rw [hf, hv]
    norm_num [voice_rate_time, voice_seconds, coverage_s, min_def]
  · have hf : framesIn ((List.range 30).map fun i : ℕ =>
        ((2 * i : ℤ), if i < 10 then 1 else 0)) 0 = 30 := by decide
    have hv : voiceIn ((List.range 30).map fun i : ℕ =>
        ((2 * i : ℤ), if i < 10 then 1 else 0)) 0 = 10 := by decide
    rw [hf, hv]
    norm_num [voice_rate_time, voice_seconds, coverage_s, min_def]

/-- Witness for C4 at a concrete two-frame stream. -/
theorem C4_witness :
    estimate_frame_period_seconds [(0 : ℤ), 2] =
      some ((([(0 : ℤ), 2].zipWith (fun a b : ℤ => b - a) [(0 : ℤ), 2].tail).sum : ℚ) /
        (([(0 : ℤ), 2].length - 1 : ℕ) : ℚ)) :=
  C4_coverage_metrics.2.1 [0, 2] (by decide)

/-- C6 counterexample: the claimed header layout (magic, timestamp, flag,
    THREE consecutive 4-byte floats, bin count, reserved) is 30 bytes and
    puts the bin count at offset 25, but the code's header is 32 bytes
    with the bin count at offset 27 (an extra 2-byte unsigned field sits
    between the second and third float). A header serialized per the
    claimed layout with bin count 7 is mis-parsed by the code. -/
theorem C6_counterexample :
    specHdrSize ≠ HDR_SIZE ∧
    (parseHdr (MAGIC ++ List.replicate 21 0 ++ [7, 0] ++ [0, 0, 0] ++ [0, 0]) 0).bins ≠ 7 := by
  constructor
  · decide
  · decide

/-- C6 (amended): the on-disk header is, in order, a 4-byte magic
    constant, an 8-byte little-endian unsigned timestamp, a 1-byte flag,
    two 4-byte floats, a 2-byte unsigned field, a 4-byte float, a 2-byte
    unsigned little-endian bin count and 3 reserved bytes — 32 bytes in
    total — followed by `bin_count` pairs of 4-byte little-endian words,
    with the frame footprint rounded up to the 512-byte sector size. -/
theorem C6_header_layout (t0 t1 t2 t3 t4 t5 t6 t7 fl s0 s1 s2 s3 e0 e1 e2 e3 p0 p1
    c0 c1 c2 c3 b0 b1 r0 r1 r2 : ℕ) (tail : List ℕ) :
    (mkHdrBytes [t0, t1, t2, t3, t4, t5, t6, t7] [fl] [s0, s1, s2, s3] [e0, e1, e2, e3]
      [p0, p1] [c0, c1, c2, c3] [b0, b1] [r0, r1, r2]).length = HDR_SIZE ∧
    parseHdr (mkHdrBytes [t0, t1, t2, t3, t4, t5, t6, t7] [fl] [s0, s1, s2, s3]
        [e0, e1, e2, e3] [p0, p1] [c0, c1, c2, c3] [b0, b1] [r0, r1, r2] ++ tail) 0 =
      ⟨MAGIC, leDecode [t0, t1, t2, t3, t4, t5, t6, t7], fl, [s0, s1, s2, s3],
        [e0, e1, e2, e3], leDecode [p0, p1], [c0, c1, c2, c3], leDecode [b0, b1],
        [r0, r1, r2]⟩ ∧
    (∀ a b c d rest, decodeWords (a :: b :: c :: d :: rest) =
      leDecode [a, b, c, d] :: decodeWords rest) ∧
    (∀ bins : ℕ, frameAdvance bins % SECTOR = 0 ∧
      HDR_SIZE + bins * 8 ≤ frameAdvance bins ∧
      frameAdvance bins < HDR_SIZE + bins * 8 + SECTOR) := by
  refine ⟨rfl, ?_, fun a b c d rest => by simp [decodeWords], fun bins => ?_⟩
  · simp [parseHdr, mkHdrBytes, MAGIC, slice, leVal, leDecode]
  · have h1 := Nat.div_mul_le_self (HDR_SIZE + bins * 8 + 511) 512
    have h2 := Nat.lt_div_mul_add (a := HDR_SIZE + bins * 8 + 511) (b := 512) (by norm_num)
    refine ⟨Nat.mul_mod_left _ _, ?_, ?_⟩ <;>
      simp only [frameAdvance, aligned_up, SECTOR, HDR_SIZE] at * <;> omega

/-- Helper: if the payload has exactly `bins * 8` bytes, the decoded float
    array has exactly `bins * 2` entries (so the reader's decoded-length
    corruption branch can never fire on a complete payload). -/
lemma decodeWords_length_eq {payload : List ℕ} {bins : ℕ} (h : payload.length = bins * 8) :
    (decodeWords payload).length = bins * 2 := by
  rw [decodeWords_length, h, show bins * 8 = bins * 2 * 4 by ring,
    Nat.mul_div_cancel _ (by norm_num)]

set_option maxRecDepth 100000 in
/-- C2: corruption resynchronization of the frame reader. (i) At any
    in-bounds cursor with bad magic the cursor advances by exactly one
    sector; (ii) a complete payload always decodes to exactly the declared
    `2 * bins` words, so the declared-frame-size resynchronization branch
    for a decoded-length mismatch is never taken and every continuing
    outcome advances by the declared frame size rounded up to the sector
    size; (iii) a short payload stops the file; and a concrete file with
    one bad-magic sector between two good frames still yields both frames,
    with no failure outcome other than `stop`/`skip`/`emit`. -/
theorem C2_resync_policy :
    (∀ (w : Window) (file : List ℕ) (off : ℕ),
      ¬ file.length < off + HDR_SIZE → (parseHdr file off).magic ≠ MAGIC →
      readerStep w file off = .skip (off + SECTOR)) ∧
    (∀ (w : Window) (file : List ℕ) (off : ℕ),
      ¬ file.length < off + HDR_SIZE → (parseHdr file off).magic = MAGIC →
      (slice file (off + HDR_SIZE) ((parseHdr file off).bins * 8)).length <
        (parseHdr file off).bins * 8 →
      readerStep w file off = .stop) ∧
    (∀ (payload : List ℕ) (bins : ℕ), payload.length = bins * 8 →
      (decodeWords payload).length = bins * 2) ∧
    (∀ (w : Window) (file : List ℕ) (off : ℕ),
      ¬ file.length < off + HDR_SIZE → (parseHdr file off).magic = MAGIC →
      ¬ (slice file (off + HDR_SIZE) ((parseHdr file off).bins * 8)).length <
        (parseHdr file off).bins * 8 →
      (((parseHdr file off).ts < w.start ∨ w.stop ≤ (parseHdr file off).ts →
        readerStep w file off = .skip (off + frameAdvance (parseHdr file off).bins)) ∧
      (¬ ((parseHdr file off).ts < w.start ∨ w.stop ≤ (parseHdr file off).ts) →
        readerStep w file off = .emit
          ⟨(parseHdr file off).ts, (parseHdr file off).bins,
            decodeWords (slice file (off + HDR_SIZE) ((parseHdr file off).bins * 8))⟩
          (off + frameAdvance (parseHdr file off).bins)))) ∧
    (readerFrames ⟨100, 200⟩ (frameABytes ++ List.replicate 512 0 ++ frameBBytes) =
      [⟨100, 1, [10, 20]⟩, ⟨150, 1, [30, 40]⟩]) := by
  refine ⟨?_, ?_, fun p bins h => decodeWords_length_eq h, ?_, by decide⟩
  · intro w file off h1 h2
    simp only [readerStep]
    rw [if_neg h1, if_pos h2]
  · intro w file off h1 h2 h3
    simp only [readerStep]
    rw [if_neg h1, if_neg (by simp [h2]), if_pos h3]
  · intro w file off h1 h2 h3
    have hlen : (slice file (off + HDR_SIZE) ((parseHdr file off).bins * 8)).length =
        (parseHdr file off).bins * 8 :=
      le_antisymm (by simp [slice]) (not_lt.mp h3)
    constructor
    · intro h4
      simp only [readerStep]
      rw [if_neg h1, if_neg (by simp [h2]), if_neg h3, if_pos h4]
    · intro h4
      simp only [readerStep]
      rw [if_neg h1, if_neg (by simp [h2]), if_neg h3, if_neg h4,
        if_neg (by simp [decodeWords_length_eq hlen])]

set_option maxRecDepth 100000 in
/-- Witness for C2: a zeroed sector has bad magic and is skipped by
    exactly one sector. -/
theorem C2_witness :
    readerStep ⟨100, 200⟩ (List.replicate 512 0) 0 = .skip (0 + SECTOR) :=
  C2_resync_policy.1 ⟨100, 200⟩ (List.replicate 512 0) 0 (by decide) (by decide)

/-- C9 counterexample: a `PermissionError` while listing the source
    directory is NOT contained — the pipeline propagates it instead of
    yielding an empty frame sequence (only `FileNotFoundError` is caught
    by `find_log_files`, and file open/read errors are not caught at
    all). -/
theorem C9_counterexample :
    stream_frames_to_summaries
        ⟨fun _ => .error .permissionDenied, fun _ => .error .permissionDenied⟩
        ⟨0, 100⟩ ["dir"] = .error .permissionDenied ∧
    stream_frames_to_summaries
        ⟨fun _ => .error .permissionDenied, fun _ => .error .permissionDenied⟩
        ⟨0, 100⟩ ["dir"] ≠ .ok [] := by
  exact ⟨rfl, by simp [stream_frames_to_summaries, find_log_files]⟩

/-- C9 (amended): only a `FileNotFoundError` raised while listing a source
    directory is contained, making that source yield an empty frame
    sequence without raising and without retrying; any other listing
    error, and any error opening or reading a log file, propagates to the
    caller. -/
theorem C9_io_error_containment :
    (∀ (fs : FS) (w : Window) (d : String),
      fs.listdir d = .error .fileNotFound →
      stream_frames_to_summaries fs w [d] = .ok []) ∧
    (∀ (fs : FS) (w : Window) (d : String) (e : IOErr),
      fs.listdir d = .error e → e ≠ .fileNotFound →
      stream_frames_to_summaries fs w [d] = .error e) ∧
    (∀ (fs : FS) (w : Window) (d : String) (idx : ℕ) (name : String) (e : IOErr),
      find_log_files fs d = .ok [(idx, name)] →
      fs.fileBytes (d ++ "/" ++ name) = .error e →
      stream_frames_to_summaries fs w [d] = .error e) := by
  refine ⟨?_, ?_, ?_⟩
  · intro fs w d h
    simp [stream_frames_to_summaries, find_log_files, h, streamFiles]
  · intro fs w d e h hne
    cases e with
    | fileNotFound => exact absurd rfl hne
    | permissionDenied => simp [stream_frames_to_summaries, find_log_files, h]
    | other => simp [stream_frames_to_summaries, find_log_files, h]
  · intro fs w d idx name e h1 h2
    simp [stream_frames_to_summaries, h1, streamFiles, h2]

/-- Witness for C9: a missing directory yields an empty result. -/
theorem C9_witness :
    stream_frames_to_summaries
        ⟨fun _ => .error .fileNotFound, fun _ => .error .fileNotFound⟩
        ⟨0, 100⟩ ["dir"] = .ok [] :=
  C9_io_error_containment.1
    ⟨fun _ => .error .fileNotFound, fun _ => .error .fileNotFound⟩ ⟨0, 100⟩ "dir" rfl

/-- Helper: when a frame is voiced, the baseline is left untouched. -/
lemma newBaseline_voice1 {st : DetState} {f : Frame} (h : voiceOut st f = 1) :
    newBaseline st f = st.baseline := by
  simp [newBaseline, h]

/-- C1: the baseline-freeze invariant. The detector updates the baseline
    (to `(1-BASELINE_ALPHA)*baseline + BASELINE_ALPHA*max(bandRMS, EPS)`)
    exactly when the frame's voice flag is 0; whenever voice = 1 the
    baseline is unchanged, and a run of consecutive voice = 1 frames
    leaves the baseline equal to its value before the run. -/
theorem C1_baseline_freeze :
    (∀ (st : DetState) (f : Frame), voiceOut st f = 1 → newBaseline st f = st.baseline) ∧
    (∀ (st : DetState) (f : Frame), voiceOut st f = 0 →
      newBaseline st f = addF (mulF (some (1 - BASELINE_ALPHA)) st.baseline)
        (mulF (some BASELINE_ALPHA) (pymax f.brms (some EPS)))) ∧
    (∀ (st : DetState) (fs : List Frame),
      (∀ o ∈ (detRun st fs).2, o.voice = 1) → (detRun st fs).1.baseline = st.baseline) := by
  refine ⟨fun st f h => newBaseline_voice1 h, ?_, ?_⟩
  · intro st f h
    simp [newBaseline, h]
  · intro st fs
    induction fs generalizing st with
    | nil => intro _; rfl
    | cons f fs ih =>
      intro h
      have hv : voiceOut st f = 1 := h (detStep st f).2 (by simp [detRun])
      have hrest : ∀ o ∈ (detRun (detStep st f).1 fs).2, o.voice = 1 := by
        intro o ho
        refine h o ?_
        simp only [detRun, List.mem_cons]
        exact Or.inr ho
      have hrun : (detRun st (f :: fs)).1 = (detRun (detStep st f).1 fs).1 := by
        simp [detRun]
      rw [hrun, ih _ hrest]
      exact newBaseline_voice1 hv

/-- Helper: a concrete candidate frame — SNR 2 ≥ 1.6, SFM 0 ≤ 0.55, and
    bandRMS 1000 against baseline 1 gives a rise of well over 3 dB. -/
lemma cand_concrete : candP ⟨some 1, 1⟩ ⟨some 1000, some 0, some 2⟩ := by
  have hE := EPS_pos
  have h2 : (0 : ℝ) < 1 + EPS := by linarith
  have hr : (0 : ℝ) < (1000 + EPS) / (1 + EPS) := by
    apply div_pos <;> linarith
  refine ⟨by norm_num [SNR_MIN_LINEAR, nanToNum], by norm_num [SFM_MAX_FOR_VOICE, nanToNum], ?_⟩
  have hlog : (1 : ℝ) ≤ Real.logb 10 ((1000 + EPS) / (1 + EPS)) := by
    rw [Real.le_logb_iff_rpow_le (by norm_num) hr, Real.rpow_one, le_div_iff₀ h2]
    norm_num [EPS]
  simp only [riseDb, addF, divF, mulF, log10F]
  rw [if_pos hr]
  simp only [pymax, Fle, RISE_DB_OVER_BASE]
  have : (3 : ℝ) ≤ 20 * Real.logb 10 ((1000 + EPS) / (1 + EPS)) := by linarith
  exact le_trans this (le_max_left _ _)

/-- Helper: from a state with one confirmed candidate, the concrete
    candidate frame yields voice = 1. -/
lemma voice1_concrete : voiceOut ⟨some 1, 1⟩ ⟨some 1000, some 0, some 2⟩ = 1 := by
  simp [voiceOut, newConfirm, cand_concrete, CONFIRM_FRAMES]

/-- Witness for C1: at a concrete voiced frame the baseline is frozen. -/
theorem C1_witness :
    newBaseline ⟨some 1, 1⟩ ⟨some 1000, some 0, some 2⟩ = (⟨some 1, 1⟩ : DetState).baseline :=
  C1_baseline_freeze.1 ⟨some 1, 1⟩ ⟨some 1000, some 0, some 2⟩ voice1_concrete

/-- Helper: the trailing-candidate count never exceeds the stream
    length. -/
lemma numTrailCand_le (st : DetState) (fs : List Frame) : numTrailCand st fs ≤ fs.length := by
  induction fs generalizing st with
  | nil => simp [numTrailCand]
  | cons f fs ih =>
    simp only [numTrailCand, List.length_cons]
    split_ifs with h
    · exact le_refl _
    · exact le_trans (ih _) (by omega)

open Classical in
/-- Helper: the confirm counter after a run counts the trailing candidate
    frames (offset by the initial count when the whole stream is a
    candidate run). -/
lemma detRun_confirm (fs : List Frame) : ∀ st : DetState,
    (detRun st fs).1.confirm =
      if numTrailCand st fs = fs.length then st.confirm + fs.length
      else numTrailCand st fs := by
  induction fs with
  | nil => intro st; simp [detRun, numTrailCand]
  | cons f fs ih =>
    intro st
    have hrun : (detRun st (f :: fs)).1 = (detRun (detStep st f).1 fs).1 := by simp [detRun]
    have hconf : (detStep st f).1.confirm = newConfirm st f := rfl
    have hle := numTrailCand_le (detStep st f).1 fs
    rw [hrun, ih]
    by_cases hc : candP st f
    · have hnc : newConfirm st f = st.confirm + 1 := by simp [newConfirm, hc]
      by_cases ht : numTrailCand (detStep st f).1 fs = fs.length
      · have h1 : numTrailCand st (f :: fs) = fs.length + 1 := by
          simp only [numTrailCand]
          rw [if_pos ⟨ht, hc⟩]
        rw [if_pos ht, hconf, hnc, h1, List.length_cons, if_pos rfl]
        omega
      · have h1 : numTrailCand st (f :: fs) = numTrailCand (detStep st f).1 fs := by
          simp only [numTrailCand]
          rw [if_neg (by tauto)]
        rw [if_neg ht, h1, List.length_cons, if_neg (by omega)]
    · have h1 : numTrailCand st (f :: fs) = numTrailCand (detStep st f).1 fs := by
        simp only [numTrailCand]
        rw [if_neg (by tauto)]
      have hnc : newConfirm st f = 0 := by simp [newConfirm, hc]
      by_cases ht : numTrailCand (detStep st f).1 fs = fs.length
      · rw [if_pos ht, hconf, hnc, h1, List.length_cons, if_neg (by omega), ht]
        omega
      · rw [if_neg ht, h1, List.length_cons, if_neg (by omega)]

/-- C3: hysteresis. The confirm counter increments by 1 on a candidate
    frame and resets to 0 otherwise; voice = 1 exactly when the updated
    counter reaches `CONFIRM_FRAMES`; over any run started with
    `confirm = 0` the counter equals the number of consecutive candidate
    frames ending at the current frame; `CONFIRM_FRAMES = 2`, so a frame
    processed from a reset counter (first frame, or predecessor
    non-candidate) never yields voice = 1. -/
theorem C3_hysteresis :
    (∀ (st : DetState) (f : Frame), candP st f → newConfirm st f = st.confirm + 1) ∧
    (∀ (st : DetState) (f : Frame), ¬ candP st f → newConfirm st f = 0) ∧
    (∀ (st : DetState) (f : Frame), voiceOut st f = 1 ↔ CONFIRM_FRAMES ≤ newConfirm st f) ∧
    (∀ (st : DetState) (fs : List Frame), st.confirm = 0 →
      (detRun st fs).1.confirm = numTrailCand st fs) ∧
    CONFIRM_FRAMES = 2 ∧
    (∀ (st : DetState) (f : Frame), st.confirm = 0 → voiceOut st f = 0) := by
  refine ⟨?_, ?_, ?_, ?_, rfl, ?_⟩
  · intro st f h
    simp [newConfirm, h]
  · intro st f h
    simp [newConfirm, h]
  · intro st f
    constructor
    · intro h
      by_contra hn
      simp [voiceOut, hn] at h
    · intro h
      simp [voiceOut, h]
  · intro st fs h0
    rw [detRun_confirm]
    split_ifs with ht
    · rw [h0, ht]
      omega
    · rfl
  · intro st f h
    by_cases hc : candP st f
    · simp [voiceOut, newConfirm, hc, h, CONFIRM_FRAMES]
    · simp [voiceOut, newConfirm, hc, CONFIRM_FRAMES]

/-- Witness for C3: an isolated candidate frame (reset counter) yields
    voice = 0. -/
theorem C3_witness : voiceOut ⟨some 1, 0⟩ ⟨some 1000, some 0, some 2⟩ = 0 :=
  C3_hysteresis.2.2.2.2.2 ⟨some 1, 0⟩ ⟨some 1000, some 0, some 2⟩ rfl

/-- C7 counterexample: on a 5-frame stream with bandRMS values
    1, 2, 3, 4, 5 the code initializes the baseline from the median of
    all five values (3), not from the first frame's value (1) as the
    claim states for streams of fewer than 20 frames: the code switches
    from median to first-value only below 5 frames. -/
theorem C7_counterexample :
    detBaseline0 [some 1, some 2, some 3, some 4, some 5] ≠
      specBaseline0 [some 1, some 2, some 3, some 4, some 5] := by
  have hfm : ([some (1 : ℝ), some 2, some 3, some 4, some 5] : List F).filterMap id =
      [1, 2, 3, 4, 5] := by simp
  have hsort : sortR [(1 : ℝ), 2, 3, 4, 5] = [1, 2, 3, 4, 5] := by
    norm_num [sortR, insortF]
  have hmed : medianR [(1 : ℝ), 2, 3, 4, 5] = 3 := by
    norm_num [medianR, List.getD]
  have hL : detBaseline0 [some 1, some 2, some 3, some 4, some 5] = some 3 := by
    simp [detBaseline0, detInit, medianF, hfm, hsort, hmed, pymax,
      List.take_of_length_le]
    norm_num [EPS]
  have hR : specBaseline0 [some 1, some 2, some 3, some 4, some 5] = some 1 := by
    simp [specBaseline0, pymax]
    norm_num [EPS]
  rw [hL, hR]
  simp only [ne_eq, Option.some.injEq]
  norm_num

/-- C7 (amended): the initial baseline is `max(median(first min(n, 20)
    bandRMS values), EPS)` when the stream has at least 5 frames, and
    `max(first bandRMS, EPS)` when it has fewer than 5 (Python `max`, so
    a NaN initial value survives the flooring). -/
theorem C7_baseline_init :
    (∀ l : List F, 5 ≤ l.length →
      detBaseline0 l = pymax (medianF (l.take 20)) (some EPS)) ∧
    (∀ l : List F, l ≠ [] → l.length < 5 →
      detBaseline0 l = pymax (l.headD (some 0)) (some EPS)) := by
  constructor
  · intro l h
    simp [detBaseline0, detInit, h]
  · intro l _ h
    simp [detBaseline0, detInit, Nat.not_le.mpr h]

/-- Witness for C7 at the concrete 5-frame stream. -/
theorem C7_witness :
    detBaseline0 [some 1, some 2, some 3, some 4, some 5] =
      pymax (medianF (([some 1, some 2, some 3, some 4, some 5] : List F).take 20))
        (some EPS) :=
  C7_baseline_init.1 [some 1, some 2, some 3, some 4, some 5] (by simp)

/-- C8 counterexample: with a NaN `sum_band` (as produced by a NaN
    magnitude in the payload), `snr_lin` is NaN — `np.clip` propagates
    NaN — so the claimed bound `snr_lin ∈ [0, SNR_CAP]` fails (IEEE
    comparisons with NaN are false). -/
theorem C8_counterexample :
    ¬ Fle (some 0) (snr_lin ⟨none, some 1, 1, 2, some 1, some 1⟩) :=
  fun h => h

/-- C8 (amended): for every summary whose energy sums are finite (not
    NaN), whose `sum_band` is nonnegative, and with `n_band ≤ n_all` (all
    guaranteed by the streaming parser), the extractor satisfies the
    claimed bounds: clipped `n_band ≤ n_all`, `noiseRMS ≥
    NOISE_RMS_FLOOR`, `sfm ≥ 0`, and `snr_lin ∈ [0, SNR_CAP]`. -/
theorem C8_feature_ranges :
    ∀ (s : FrameSummary) (xb xa xm xl : ℝ),
      s.sum_band = some xb → 0 ≤ xb → s.sum_all = some xa →
      s.sum_mag_band = some xm → s.sum_log_mag_band = some xl →
      s.n_band ≤ s.n_all →
      nBandClip s ≤ nAllClip s ∧
      Fle (some NOISE_RMS_FLOOR) (noiseRMS s) ∧
      Fle (some 0) (sfm s) ∧
      Fle (some 0) (snr_lin s) ∧ Fle (snr_lin s) (some SNR_CAP) := by
  intro s xb xa xm xl hb hb0 ha hm hl hn
  have hnb : (0 : ℝ) < ((nBandClip s : ℤ) : ℝ) := by
    exact_mod_cast lt_of_lt_of_le Int.zero_lt_one (le_max_right _ _)
  have hnn : (0 : ℝ) < ((nNoise s : ℤ) : ℝ) := by
    exact_mod_cast lt_of_lt_of_le Int.zero_lt_one (le_max_right _ _)
  have hsq : (0 : ℝ) ≤ max (xa - xb) 0 / ((nNoise s : ℤ) : ℝ) :=
    div_nonneg (le_max_right _ _) hnn.le
  have h2 : noiseRMS s =
      some (max (Real.sqrt (max (xa - xb) 0 / ((nNoise s : ℤ) : ℝ))) NOISE_RMS_FLOOR) := by
    simp [noiseRMS, sumNoise, ha, hb, subF, npMax, divF, sqrtF, hsq]
  have hB : bandRMS s = some (Real.sqrt (xb / ((nBandClip s : ℤ) : ℝ))) := by
    simp [bandRMS, hb, divF, sqrtF, div_nonneg hb0 hnb.le]
  have h3 : snr_lin s =
      some (min (max ((Real.sqrt (xb / ((nBandClip s : ℤ) : ℝ)) /
        max (Real.sqrt (max (xa - xb) 0 / ((nNoise s : ℤ) : ℝ))) NOISE_RMS_FLOOR) ^ 2) 0)
        SNR_CAP) := by
    simp [snr_lin, hB, h2, divF, sqF, npMax, npMin]
  refine ⟨max_le_max hn (le_refl 1), ?_, ?_, ?_, ?_⟩
  · rw [h2]
    exact le_max_right _ _
  · have h4 : sfm s = some (max (Real.exp (xl / ((nBandClip s : ℤ) : ℝ)) /
        (xm / ((nBandClip s : ℤ) : ℝ) + EPS)) 0) := by
      simp [sfm, gmMag, amMag, hl, hm, divF, expF, addF, npMax]
    rw [h4]
    exact le_max_right _ _
  · rw [h3]
    exact le_min (le_max_right _ _) (by norm_num [SNR_CAP])
  · rw [h3]
    exact min_le_right _ _

/-- Witness for C8 at a concrete finite summary. -/
theorem C8_witness :
    nBandClip ⟨some 1, some 2, 1, 2, some 1, some 0⟩ ≤
        nAllClip ⟨some 1, some 2, 1, 2, some 1, some 0⟩ ∧
      Fle (some NOISE_RMS_FLOOR) (noiseRMS ⟨some 1, some 2, 1, 2, some 1, some 0⟩) ∧
      Fle (some 0) (sfm ⟨some 1, some 2, 1, 2, some 1, some 0⟩) ∧
      Fle (some 0) (snr_lin ⟨some 1, some 2, 1, 2, some 1, some 0⟩) ∧
      Fle (snr_lin ⟨some 1, some 2, 1, 2, some 1, some 0⟩) (some SNR_CAP) :=
  C8_feature_ranges ⟨some 1, some 2, 1, 2, some 1, some 0⟩ 1 2 1 0 rfl (by norm_num)
    rfl rfl rfl (by norm_num)

/-- Helper: a positive baseline and a finite nonnegative bandRMS keep the
    updated baseline positive (the EMA of positives, or the frozen
    value). -/
lemma newBaseline_pos {st : DetState} {f : Frame}
    (hb : ∃ b, st.baseline = some b ∧ 0 < b)
    (hf : ∃ x, f.brms = some x ∧ 0 ≤ x) :
    ∃ b, newBaseline st f = some b ∧ 0 < b := by
  obtain ⟨b, hbe, hbp⟩ := hb
  obtain ⟨x, hxe, hxp⟩ := hf
  by_cases hv : voiceOut st f = 0
  · refine ⟨(1 - BASELINE_ALPHA) * b + BASELINE_ALPHA * max x EPS, ?_, ?_⟩
    · simp [newBaseline, hv, hbe, hxe, mulF, addF, pymax]
    · have hE := EPS_pos
      have hmx : EPS ≤ max x EPS := le_max_right _ _
      simp only [BASELINE_ALPHA]
      nlinarith
  · exact ⟨b, by simp [newBaseline, hv, hbe], hbp⟩

/-- Helper: with a positive baseline and finite nonnegative bandRMS, the
    rise is a finite value. -/
lemma riseDb_some {st : DetState} {f : Frame}
    (hb : ∃ b, st.baseline = some b ∧ 0 < b)
    (hf : ∃ x, f.brms = some x ∧ 0 ≤ x) :
    ∃ r, riseDb st f = some r := by
  obtain ⟨b, hbe, hbp⟩ := hb
  obtain ⟨x, hxe, hxp⟩ := hf
  have hE := EPS_pos
  have hpos : 0 < (x + EPS) / (b + EPS) := div_pos (by linarith) (by linarith)
  refine ⟨max (20 * Real.logb 10 ((x + EPS) / (b + EPS))) 0, ?_⟩
  simp [riseDb, hbe, hxe, addF, divF, log10F, hpos, mulF, pymax]

/-- Helper: with a positive baseline and finite nonnegative bandRMS, the
    frame's score is a finite value in `[0, 1]` — each clamped component
    lies in `[0, 1]` and the weights 0.5, 0.3, 0.2 sum to 1. -/
lemma scoreOut_range {st : DetState} {f : Frame}
    (hb : ∃ b, st.baseline = some b ∧ 0 < b)
    (hf : ∃ x, f.brms = some x ∧ 0 ≤ x) :
    ∃ sc, scoreOut st f = some sc ∧ 0 ≤ sc ∧ sc ≤ 1 := by
  obtain ⟨r, hr⟩ := riseDb_some hb hf
  have hA : 0 ≤ min (max (r / 12) 0) 1 ∧ min (max (r / 12) 0) 1 ≤ 1 :=
    ⟨le_min (le_max_right _ _) zero_le_one, min_le_right _ _⟩
  have hB : 0 ≤ min (max ((nanToNum 0 f.snr0 - 1) / 4) 0) 1 ∧
      min (max ((nanToNum 0 f.snr0 - 1) / 4) 0) 1 ≤ 1 :=
    ⟨le_min (le_max_right _ _) zero_le_one, min_le_right _ _⟩
  have hC : 0 ≤ min (max ((1 - nanToNum 1 f.sfm0) / 1) 0) 1 ∧
      min (max ((1 - nanToNum 1 f.sfm0) / 1) 0) 1 ≤ 1 :=
    ⟨le_min (le_max_right _ _) zero_le_one, min_le_right _ _⟩
  refine ⟨W_RISE * min (max (r / 12) 0) 1 +
      W_SNR * min (max ((nanToNum 0 f.snr0 - 1) / 4) 0) 1 +
      W_HARM * min (max ((1 - nanToNum 1 f.sfm0) / 1) 0) 1, ?_, ?_, ?_⟩
  · simp [scoreOut, hr, divF, pymax, pymin, mulF, addF]
  · simp only [W_RISE, W_SNR, W_HARM]
    nlinarith [hA.1, hB.1, hC.1]
  · simp only [W_RISE, W_SNR, W_HARM]
    nlinarith [hA.1, hA.2, hB.1, hB.2, hC.1, hC.2]

/-- Helper: score range over a whole run, by induction with the positive
    baseline invariant. -/
lemma detRun_score (fs : List Frame) : ∀ st : DetState,
    (∃ b, st.baseline = some b ∧ 0 < b) →
    (∀ f ∈ fs, ∃ x, f.brms = some x ∧ 0 ≤ x) →
    ∀ o ∈ (detRun st fs).2, ∃ sc, o.score = some sc ∧ 0 ≤ sc ∧ sc ≤ 1 := by
  induction fs with
  | nil =>
    intro st _ _ o ho
    simp [detRun] at ho
  | cons f fs ih =>
    intro st hb hall o ho
    simp only [detRun, List.mem_cons] at ho
    rcases ho with rfl | ho
    · exact scoreOut_range hb (hall f (by simp))
    · exact ih (detStep st f).1 (newBaseline_pos hb (hall f (by simp)))
        (fun g hg => hall g (by simp [hg])) o ho

/-- Helper: with at least one frame and all bandRMS values finite, the
    initial baseline is a positive finite value (the EPS floor). -/
lemma detBaseline0_pos : ∀ l : List F, l ≠ [] → (∀ x ∈ l, ∃ v : ℝ, x = some v) →
    ∃ b, detBaseline0 l = some b ∧ 0 < b := by
  intro l hne hall
  match l, hne with
  | a :: as, _ =>
    obtain ⟨va, hva⟩ := hall a (by simp)
    by_cases h5 : 5 ≤ (a :: as).length
    · have h5a : 4 ≤ as.length := by
        simp only [List.length_cons] at h5
        omega
      have hmed : ∃ m, medianF (a :: as.take 19) = some m := by
        simp only [medianF, hva]
        rw [dif_neg (by simp)]
        exact ⟨_, rfl⟩
      obtain ⟨m, hm⟩ := hmed
      refine ⟨max m EPS, ?_, lt_of_lt_of_le EPS_pos (le_max_right _ _)⟩
      simp [detBaseline0, detInit, h5a, hm, pymax, List.take_succ_cons]
    · have h5a : ¬ 4 ≤ as.length := by
        simp only [List.length_cons] at h5
        omega
      refine ⟨max va EPS, ?_, lt_of_lt_of_le EPS_pos (le_max_right _ _)⟩
      simp [detBaseline0, detInit, h5a, hva, pymax]

/-- C10 counterexample: a NaN bandRMS on the FIRST frame poisons the
    baseline, so the SECOND frame — whose bandRMS is the finite value 1 —
    still gets a NaN voice_score (NaN survives the Python `min`/`max`
    clamps as the first argument): the claim fails for a frame with
    finite bandRMS. -/
theorem C10_counterexample :
    ((stateful_detect_one_kit
      [⟨none, some 1, some 0⟩, ⟨some 1, some 1, some 0⟩]).2.map FrameOut.score) =
        [none, none] ∧
    ¬ Fle (some 0) (none : F) := by
  constructor
  · have h0 : detBaseline0 [none, some 1] = (none : F) := rfl
    have hnc : ¬ candP ⟨none, 0⟩ ⟨none, some 1, some 0⟩ := by
      intro h
      have := h.1
      norm_num [SNR_MIN_LINEAR, nanToNum] at this
    have hcf : newConfirm ⟨none, 0⟩ ⟨none, some 1, some 0⟩ = 0 := by
      simp [newConfirm, hnc]
    have hv : voiceOut ⟨none, 0⟩ ⟨none, some 1, some 0⟩ = 0 := by
      simp [voiceOut, hcf, CONFIRM_FRAMES]
    have hb1 : newBaseline ⟨none, 0⟩ ⟨none, some 1, some 0⟩ = none := by
      simp [newBaseline, hv, mulF, addF, pymax]
    simp only [stateful_detect_one_kit, detRun, detStep, List.map_cons, List.map_nil, h0,
      hb1, hcf]
    rfl
  · exact fun h => h

/-- C10 (amended): for every nonempty frame stream in which every frame's
    bandRMS is a finite nonnegative value (as the feature extractor
    produces), every frame's voice_score is a finite value in `[0, 1]`,
    regardless of the binary voice flag and regardless of NaN sfm or snr
    inputs: each of the three components is clamped to `[0, 1]` and the
    weights 0.5, 0.3, 0.2 sum to 1. -/
theorem C10_score_range :
    ∀ fs : List Frame, fs ≠ [] → (∀ f ∈ fs, ∃ x : ℝ, f.brms = some x ∧ 0 ≤ x) →
      ∀ o ∈ (stateful_detect_one_kit fs).2, ∃ sc, o.score = some sc ∧ 0 ≤ sc ∧ sc ≤ 1 := by
  intro fs hne hall
  have hb : ∃ b, detBaseline0 (fs.map Frame.brms) = some b ∧ 0 < b := by
    apply detBaseline0_pos
    · simp [hne]
    · intro x hx
      simp only [List.mem_map] at hx
      obtain ⟨f, hf, rfl⟩ := hx
      obtain ⟨v, hv, _⟩ := hall f hf
      exact ⟨v, hv⟩
  exact detRun_score fs ⟨detBaseline0 (fs.map Frame.brms), 0⟩ hb hall

/-- Witness for C10 at a one-frame stream with finite bandRMS and NaN
    sfm/snr. -/
theorem C10_witness :
    ∃ sc, ((stateful_detect_one_kit [⟨some 1, none, none⟩]).2.headD
      ⟨0, none, none⟩).score = some sc ∧ 0 ≤ sc ∧ sc ≤ 1 :=
  C10_score_range [⟨some 1, none, none⟩] (by simp)
    (by
      intro f hf
      simp only [List.mem_singleton] at hf
      subst hf
      exact ⟨1, rfl, by norm_num⟩)
    _ (by simp [stateful_detect_one_kit, detRun])

end NoisePrep
